import Mathlib

/-!
# Verification of the fortio grpc ping measurement core (`pingsrv.go`)

Shallow embedding of the measurement protocol of `pingsrv.go`:

* `pingSrvPing` embeds the responder `pingSrv.Ping` (lines 54-59): copy the
  incoming message, overwrite its `Ts` field with the responder clock.
* `pingClientCall` embeds the client loop of the same name (lines 79-125):
  one warm-up call, then `n` iterations, each sending the same message twice,
  recording three RTT samples and one clock-skew sample per iteration.
* `grpcClientPing` embeds the count coercion of `grpcClient` (lines 151-165).

Modelling conventions:

* Go `int64` timestamps are modelled as `Int` (nanosecond magnitudes of real
  wall clocks are far below `2^63`, so two-complement wrap never occurs on
  the values the program manipulates).
* Go integer division `rtR / 2` truncates toward zero; it is modelled by
  `Int.tdiv` (Lean's `/` on `Int` is euclidean division, which differs on
  negative operands).
* The client's successive `time.Now().UnixNano()` readings are an oracle
  `clock : ℕ → Int` consumed at fixed positions: iteration `i` (1-based)
  reads positions `3*(i-1)` (t1a), `3*(i-1)+1` (t2a), `3*(i-1)+2` (t3a);
  the warm-up call performs no clock read.
* The RPC channel is an oracle `transport : ℕ → PingMessage → Option PingMessage`:
  call number `c` (warm-up is call 0, iteration `i` performs calls `2*i-1`
  and `2*i`) with request `m` either returns a response or fails (`none`).
  A failed timed call makes the program abort the run (`log.Fatalf`, or the
  nil-dereference of `res2.Ts` on the second call, which likewise kills
  the run before anything further is recorded).
* `stats.Histogram.Record` is an append-only sink; the two histograms are
  modelled as the lists of recorded values in order.  `float64(x) / 1000.`
  is modelled exactly over `ℚ`.
* As a ghost instrument the model also logs, in `sent`, the request message
  passed to the transport on the warm-up call and on each completed
  iteration's two calls.
-/

/-- Wire message `fgrpc.PingMessage`: payload, sequence, timestamp (int64
nanoseconds). -/
structure PingMessage where
  Payload : String
  Seq : Int
  Ts : Int
deriving DecidableEq, Repr

/-- Go `int64` division (truncation toward zero), used at `rtR / 2`
(pingsrv.go line 115). -/
def goDiv (a b : Int) : Int := Int.tdiv a b

/-- `pingSrv.Ping` (pingsrv.go lines 54-59): `out := *in` then
`out.Ts = time.Now().UnixNano()`, where `now` is the responder's clock value
at the moment of handling. -/
def pingSrvPing (msg : PingMessage) (now : Int) : PingMessage :=
  { msg with Ts := now }

/-- The per-iteration clock-offset computation (pingsrv.go lines 113, 115,
117): `rtR := t2b - t1b`, `midR := t1b + (rtR / 2)`, `x := midR - t2a`. -/
def offsetEstimate (t2a t1b t2b : Int) : Int :=
  (t1b + goDiv (t2b - t1b) 2) - t2a

/-- Client-side loop state: the two histogram sample streams, the ghost log
of sent requests, and the evolving message object `msg`. -/
structure RunState where
  rttSamples : List ℚ
  skewSamples : List ℚ
  sent : List PingMessage
  msg : PingMessage
deriving DecidableEq, Repr

/-- Result of a client run: the recorded samples, the ghost request log, and
`abortedAt = some k` when the run was killed during iteration `k` (`some 0`:
during the warm-up call), `none` for a run that completed all iterations. -/
structure RunResult where
  rttSamples : List ℚ
  skewSamples : List ℚ
  sent : List PingMessage
  abortedAt : Option ℕ
deriving DecidableEq, Repr

/-- The request message sent (twice) in iteration `i` (pingsrv.go lines
94-96): `msg.Seq = int64(i)`, `t1a := time.Now().UnixNano()`, `msg.Ts = t1a`,
applied to the message object left over from the previous iteration. -/
def sentMsg (clock : ℕ → Int) (i : ℕ) (prev : PingMessage) : PingMessage :=
  { prev with Seq := (i : Int), Ts := clock (3 * (i - 1)) }

/-- One iteration of the client loop body (pingsrv.go lines 93-121).
Returns `none` when a timed call fails (the program dies by `log.Fatalf`
for the first call, and for the second call by the `res2.Ts` nil dereference
or `log.Fatalf`; in every case nothing of this iteration is recorded). -/
def pingIteration (clock : ℕ → Int) (transport : ℕ → PingMessage → Option PingMessage)
    (i : ℕ) (st : RunState) : Option RunState :=
  let t1a := clock (3 * (i - 1))
  let m := sentMsg clock i st.msg
  match transport (2 * i - 1) m with
  | none => none
  | some res1 =>
    let t2a := clock (3 * (i - 1) + 1)
    let t1b := res1.Ts
    match transport (2 * i) m with
    | none => none
    | some res2 =>
      let t3a := clock (3 * (i - 1) + 2)
      let t2b := res2.Ts
      let rt1 := t2a - t1a
      let rt2 := t3a - t2a
      let rtR := t2b - t1b
      let x := offsetEstimate t2a t1b t2b
      some { rttSamples := st.rttSamples ++
               [(rt1 : ℚ) / 1000, (rt2 : ℚ) / 1000, (rtR : ℚ) / 1000]
             skewSamples := st.skewSamples ++ [(x : ℚ) / 1000]
             sent := st.sent ++ [m, m]
             msg := res2 }

/-- The client's `for i := 1; i <= n; i++` loop, with `fuel` remaining
iterations and `i` the current iteration number. -/
def pingLoop (clock : ℕ → Int) (transport : ℕ → PingMessage → Option PingMessage) :
    ℕ → ℕ → RunState → RunResult
  | 0, _, st => ⟨st.rttSamples, st.skewSamples, st.sent, none⟩
  | fuel + 1, i, st =>
    match pingIteration clock transport i st with
    | none => ⟨st.rttSamples, st.skewSamples, st.sent, some i⟩
    | some st' => pingLoop clock transport fuel (i + 1) st'

/-- `pingClientCall` (pingsrv.go lines 79-125): build the initial message
(`payload`, zero `Seq` and `Ts`), perform the warm-up call (failure is fatal),
then run the loop for `n` iterations starting from `i = 1`. -/
def pingClientCall (clock : ℕ → Int) (transport : ℕ → PingMessage → Option PingMessage)
    (n : Int) (payload : String) : RunResult :=
  let msg0 : PingMessage := ⟨payload, 0, 0⟩
  match transport 0 msg0 with
  | none => ⟨[], [], [msg0], some 0⟩
  | some _ => pingLoop clock transport n.toNat 1 ⟨[], [], [msg0], msg0⟩

/-- The iteration-count coercion of `grpcClient` (pingsrv.go lines 156-159):
`count := int(*exactlyFlag); if count <= 0 { count = 1 }`. -/
def grpcClientCount (exactly : Int) : Int :=
  if exactly ≤ 0 then 1 else exactly

/-- `grpcClient` in ping mode (pingsrv.go lines 151-165, `doHealth` false):
coerce the requested count and run `pingClientCall` with it. -/
def grpcClientPing (exactly : Int) (clock : ℕ → Int)
    (transport : ℕ → PingMessage → Option PingMessage) (payload : String) : RunResult :=
  pingClientCall clock transport (grpcClientCount exactly) payload

/-- A transport whose other end is the real responder `pingSrv.Ping`, the
responder's clock being read from the oracle `sclock` at each call number. -/
def serverTransport (sclock : ℕ → Int) : ℕ → PingMessage → Option PingMessage :=
  fun c m => some (pingSrvPing m (sclock c))

theorem pingIteration_succ (clock : ℕ → Int) (transport : ℕ → PingMessage → Option PingMessage)
    (i : ℕ) (st : RunState) (r1 r2 : PingMessage)
    (h1 : transport (2 * i - 1) (sentMsg clock i st.msg) = some r1)
    (h2 : transport (2 * i) (sentMsg clock i st.msg) = some r2) :
    pingIteration clock transport i st =
      some { rttSamples := st.rttSamples ++
               [((clock (3*(i-1)+1) - clock (3*(i-1)) : Int) : ℚ) / 1000,
                ((clock (3*(i-1)+2) - clock (3*(i-1)+1) : Int) : ℚ) / 1000,
                ((r2.Ts - r1.Ts : Int) : ℚ) / 1000],
             skewSamples := st.skewSamples ++
               [((offsetEstimate (clock (3*(i-1)+1)) r1.Ts r2.Ts : Int) : ℚ) / 1000],
             sent := st.sent ++ [sentMsg clock i st.msg, sentMsg clock i st.msg],
             msg := r2 } := by
  simp only [pingIteration, h1, h2]

theorem pingIteration_fail1 (clock : ℕ → Int) (transport : ℕ → PingMessage → Option PingMessage)
    (i : ℕ) (st : RunState)
    (h : ∀ m, transport (2 * i - 1) m = none) :
    pingIteration clock transport i st = none := by
  simp only [pingIteration, h]

theorem pingIteration_fail2 (clock : ℕ → Int) (transport : ℕ → PingMessage → Option PingMessage)
    (i : ℕ) (st : RunState) (r1 : PingMessage)
    (h1 : transport (2 * i - 1) (sentMsg clock i st.msg) = some r1)
    (h2 : ∀ m, transport (2 * i) m = none) :
    pingIteration clock transport i st = none := by
  simp only [pingIteration, h1, h2]

theorem pingLoop_success (clock : ℕ → Int) (transport : ℕ → PingMessage → Option PingMessage)
    (hok : ∀ c m, (transport c m).isSome) :
    ∀ (f i : ℕ) (st : RunState), 1 ≤ i →
      ∃ (rtt skew : List ℚ) (ms : List PingMessage),
        pingLoop clock transport f i st =
          ⟨st.rttSamples ++ rtt, st.skewSamples ++ skew,
           st.sent ++ ms.flatMap (fun m => [m, m]), none⟩ ∧
        rtt.length = 3 * f ∧ skew.length = f ∧ ms.length = f ∧
        (∀ x ∈ rtt, ∃ d : ℤ, x = (d : ℚ) / 1000) ∧
        (∀ x ∈ skew, ∃ d : ℤ, x = (d : ℚ) / 1000) ∧
        (∀ j, j < f → ∃ mj, ms.get? j = some mj ∧
           mj.Ts = clock (3 * (i - 1 + j)) ∧ mj.Seq = ((i + j : ℕ) : Int)) := by
  intro f
  induction f with
  | zero =>
    intro i st _
    exact ⟨[], [], [], by simp [pingLoop], by simp, by simp, by simp, by simp, by simp,
      by intro j hj; omega⟩
  | succ f ih =>
    intro i st hi
    obtain ⟨r1, hr1⟩ := Option.isSome_iff_exists.mp (hok (2 * i - 1) (sentMsg clock i st.msg))
    obtain ⟨r2, hr2⟩ := Option.isSome_iff_exists.mp (hok (2 * i) (sentMsg clock i st.msg))
    have hit := pingIteration_succ clock transport i st r1 r2 hr1 hr2
    obtain ⟨rtt, skew, ms, hres, hlr, hls, hlm, hdr, hds, hidx⟩ :=
      ih (i + 1)
        ⟨st.rttSamples ++
           [((clock (3*(i-1)+1) - clock (3*(i-1)) : Int) : ℚ) / 1000,
            ((clock (3*(i-1)+2) - clock (3*(i-1)+1) : Int) : ℚ) / 1000,
            ((r2.Ts - r1.Ts : Int) : ℚ) / 1000],
         st.skewSamples ++ [((offsetEstimate (clock (3*(i-1)+1)) r1.Ts r2.Ts : Int) : ℚ) / 1000],
         st.sent ++ [sentMsg clock i st.msg, sentMsg clock i st.msg], r2⟩ (by omega)
    refine ⟨[((clock (3*(i-1)+1) - clock (3*(i-1)) : Int) : ℚ) / 1000,
             ((clock (3*(i-1)+2) - clock (3*(i-1)+1) : Int) : ℚ) / 1000,
             ((r2.Ts - r1.Ts : Int) : ℚ) / 1000] ++ rtt,
            [((offsetEstimate (clock (3*(i-1)+1)) r1.Ts r2.Ts : Int) : ℚ) / 1000] ++ skew,
            sentMsg clock i st.msg :: ms, ?_, ?_, ?_, ?_, ?_, ?_, ?_⟩
    · simp only [pingLoop, hit, hres]
      simp
    · simp [hlr]; ring
    · simp [hls]
    · simp [hlm]
    · intro x hx
      rcases List.mem_append.mp hx with hx | hx
      · simp only [List.mem_cons, List.not_mem_nil, or_false] at hx
        rcases hx with h | h | h
        · exact ⟨clock (3*(i-1)+1) - clock (3*(i-1)), h⟩
        · exact ⟨clock (3*(i-1)+2) - clock (3*(i-1)+1), h⟩
        · exact ⟨r2.Ts - r1.Ts, h⟩
      · exact hdr x hx
    · intro x hx
      rcases List.mem_append.mp hx with hx | hx
      · simp only [List.mem_cons, List.not_mem_nil, or_false] at hx
        exact ⟨offsetEstimate (clock (3*(i-1)+1)) r1.Ts r2.Ts, hx⟩
      · exact hds x hx
    · intro j hj
      cases j with
      | zero =>
        refine ⟨sentMsg clock i st.msg, by simp, by simp [sentMsg], by simp [sentMsg]⟩
      | succ j =>
        obtain ⟨mj, hget, hts, hseq⟩ := hidx j (by omega)
        refine ⟨mj, by simpa using hget, ?_, ?_⟩
        · rw [hts]
          congr 1
          omega
        · rw [hseq]
          congr 1
          omega

/-- Transport failure pattern: the first call of iteration `k` fails, or it
succeeds and the second call of iteration `k` fails. -/
def failsAt (transport : ℕ → PingMessage → Option PingMessage) (k : ℕ) : Prop :=
  (∀ m, transport (2 * k - 1) m = none) ∨
  ((∀ m, (transport (2 * k - 1) m).isSome) ∧ (∀ m, transport (2 * k) m = none))

theorem pingLoop_abort (clock : ℕ → Int) (transport : ℕ → PingMessage → Option PingMessage)
    (k : ℕ)
    (hbefore : ∀ c m, c < 2 * k - 1 → (transport c m).isSome)
    (hfail : failsAt transport k) :
    ∀ (f i : ℕ) (st : RunState), 1 ≤ i → i ≤ k → k < i + f →
      ∃ (rtt skew : List ℚ) (sent : List PingMessage),
        pingLoop clock transport f i st =
          ⟨st.rttSamples ++ rtt, st.skewSamples ++ skew, st.sent ++ sent, some k⟩ ∧
        rtt.length = 3 * (k - i) ∧ skew.length = k - i := by
  intro f
  induction f with
  | zero => intro i st h1 h2 h3; omega
  | succ f ih =>
    intro i st h1 h2 h3
    by_cases hik : i = k
    · subst hik
      have hnone : pingIteration clock transport i st = none := by
        rcases hfail with h | ⟨hs, h⟩
        · exact pingIteration_fail1 clock transport i st h
        · obtain ⟨r1, hr1⟩ := Option.isSome_iff_exists.mp (hs (sentMsg clock i st.msg))
          exact pingIteration_fail2 clock transport i st r1 hr1 h
      refine ⟨[], [], [], ?_, by simp, by simp⟩
      simp only [pingLoop, hnone]
      simp
    · have hik2 : i < k := by omega
      obtain ⟨r1, hr1⟩ := Option.isSome_iff_exists.mp
        (hbefore (2 * i - 1) (sentMsg clock i st.msg) (by omega))
      obtain ⟨r2, hr2⟩ := Option.isSome_iff_exists.mp
        (hbefore (2 * i) (sentMsg clock i st.msg) (by omega))
      have hit := pingIteration_succ clock transport i st r1 r2 hr1 hr2
      obtain ⟨rtt, skew, sent, hres, hlr, hls⟩ :=
        ih (i + 1)
          ⟨st.rttSamples ++
             [((clock (3*(i-1)+1) - clock (3*(i-1)) : Int) : ℚ) / 1000,
              ((clock (3*(i-1)+2) - clock (3*(i-1)+1) : Int) : ℚ) / 1000,
              ((r2.Ts - r1.Ts : Int) : ℚ) / 1000],
           st.skewSamples ++ [((offsetEstimate (clock (3*(i-1)+1)) r1.Ts r2.Ts : Int) : ℚ) / 1000],
           st.sent ++ [sentMsg clock i st.msg, sentMsg clock i st.msg], r2⟩
          (by omega) (by omega) (by omega)
      refine ⟨[((clock (3*(i-1)+1) - clock (3*(i-1)) : Int) : ℚ) / 1000,
               ((clock (3*(i-1)+2) - clock (3*(i-1)+1) : Int) : ℚ) / 1000,
               ((r2.Ts - r1.Ts : Int) : ℚ) / 1000] ++ rtt,
              [((offsetEstimate (clock (3*(i-1)+1)) r1.Ts r2.Ts : Int) : ℚ) / 1000] ++ skew,
              [sentMsg clock i st.msg, sentMsg clock i st.msg] ++ sent, ?_, ?_, ?_⟩
      · simp only [pingLoop, hit, hres]
        simp
      · simp [hlr]; omega
      · simp [hls]; omega

theorem pingLoop_rtt_nonneg (clock sclock : ℕ → Int)
    (hc : Monotone clock) (hs : Monotone sclock) :
    ∀ (f i : ℕ) (st : RunState), 1 ≤ i → (∀ x ∈ st.rttSamples, 0 ≤ x) →
      ∀ x ∈ (pingLoop clock (serverTransport sclock) f i st).rttSamples, 0 ≤ x := by
  intro f
  induction f with
  | zero => intro i st _ hst; simpa [pingLoop] using hst
  | succ f ih =>
    intro i st hi hst
    have hr1 : serverTransport sclock (2 * i - 1) (sentMsg clock i st.msg) =
        some (pingSrvPing (sentMsg clock i st.msg) (sclock (2 * i - 1))) := rfl
    have hr2 : serverTransport sclock (2 * i) (sentMsg clock i st.msg) =
        some (pingSrvPing (sentMsg clock i st.msg) (sclock (2 * i))) := rfl
    have hit := pingIteration_succ clock (serverTransport sclock) i st _ _ hr1 hr2
    simp only [pingLoop, hit]
    apply ih (i + 1) _ (by omega)
    intro x hx
    simp only [pingSrvPing] at hx
    rcases List.mem_append.mp hx with hx | hx
    · exact hst x hx
    · simp only [List.mem_cons, List.not_mem_nil, or_false] at hx
      rcases hx with h | h | h
      · subst h
        apply div_nonneg _ (by norm_num)
        have : clock (3 * (i - 1)) ≤ clock (3 * (i - 1) + 1) := hc (by omega)
        exact_mod_cast Int.sub_nonneg.mpr this
      · subst h
        apply div_nonneg _ (by norm_num)
        have : clock (3 * (i - 1) + 1) ≤ clock (3 * (i - 1) + 2) := hc (by omega)
        exact_mod_cast Int.sub_nonneg.mpr this
      · subst h
        apply div_nonneg _ (by norm_num)
        have : sclock (2 * i - 1) ≤ sclock (2 * i) := hs (by omega)
        exact_mod_cast Int.sub_nonneg.mpr this

theorem pingIteration_congr (clk1 clk2 : ℕ → Int)
    (tr1 tr2 : ℕ → PingMessage → Option PingMessage) (i : ℕ) (st : RunState)
    (hc : ∀ j, 3 * (i - 1) ≤ j → j < 3 * (i - 1) + 3 → clk1 j = clk2 j)
    (ht1 : ∀ m, tr1 (2 * i - 1) m = tr2 (2 * i - 1) m)
    (ht2 : ∀ m, tr1 (2 * i) m = tr2 (2 * i) m) :
    pingIteration clk1 tr1 i st = pingIteration clk2 tr2 i st := by
  have h0 : clk1 (3 * (i - 1)) = clk2 (3 * (i - 1)) := hc _ (by omega) (by omega)
  have h1 : clk1 (3 * (i - 1) + 1) = clk2 (3 * (i - 1) + 1) := hc _ (by omega) (by omega)
  have h2 : clk1 (3 * (i - 1) + 2) = clk2 (3 * (i - 1) + 2) := hc _ (by omega) (by omega)
  have hm : sentMsg clk1 i st.msg = sentMsg clk2 i st.msg := by
    simp [sentMsg, h0]
  simp only [pingIteration, hm, ht1, ht2, h0, h1, h2]

theorem pingLoop_congr (clk1 clk2 : ℕ → Int)
    (tr1 tr2 : ℕ → PingMessage → Option PingMessage) :
    ∀ (f i : ℕ) (st : RunState), 1 ≤ i →
      (∀ j, 3 * (i - 1) ≤ j → j < 3 * (i - 1) + 3 * f → clk1 j = clk2 j) →
      (∀ c m, 2 * i - 1 ≤ c → c ≤ 2 * (i - 1) + 2 * f → tr1 c m = tr2 c m) →
      pingLoop clk1 tr1 f i st = pingLoop clk2 tr2 f i st := by
  intro f
  induction f with
  | zero => intro i st _ _ _; rfl
  | succ f ih =>
    intro i st hi hc ht
    have hcongr := pingIteration_congr clk1 clk2 tr1 tr2 i st
      (fun j hj1 hj2 => hc j hj1 (by omega))
      (fun m => ht (2 * i - 1) m (by omega) (by omega))
      (fun m => ht (2 * i) m (by omega) (by omega))
    rw [pingLoop, pingLoop, hcongr]
    cases hres : pingIteration clk2 tr2 i st with
    | none => simp only
    | some st' =>
      simp only
      exact ih (i + 1) st' (by omega)
        (fun j hj1 hj2 => hc j (by omega) (by omega))
        (fun c m hc1 hc2 => ht c m (by omega) (by omega))

theorem pingClientCall_congr (clk1 clk2 : ℕ → Int)
    (tr1 tr2 : ℕ → PingMessage → Option PingMessage) (n : Int) (payload : String)
    (hc : ∀ j, j < 3 * n.toNat → clk1 j = clk2 j)
    (ht : ∀ c m, c ≤ 2 * n.toNat → tr1 c m = tr2 c m) :
    pingClientCall clk1 tr1 n payload = pingClientCall clk2 tr2 n payload := by
  by_cases hn : n.toNat = 0
  · simp only [pingClientCall, ht 0 ⟨payload, 0, 0⟩ (by omega), hn]
    cases tr2 0 ⟨payload, 0, 0⟩ with
    | none => simp only
    | some r => simp only [pingLoop]
  · simp only [pingClientCall, ht 0 ⟨payload, 0, 0⟩ (by omega)]
    cases tr2 0 ⟨payload, 0, 0⟩ with
    | none => simp only
    | some r =>
      simp only
      exact pingLoop_congr clk1 clk2 tr1 tr2 n.toNat 1 _ (by omega)
        (fun j hj1 hj2 => hc j (by omega))
        (fun c m hc1 hc2 => ht c m (by omega))

theorem pingClientCall_success (clock : ℕ → Int)
    (transport : ℕ → PingMessage → Option PingMessage)
    (hok : ∀ c m, (transport c m).isSome) (n : Int) (payload : String) :
    ∃ (rtt skew : List ℚ) (ms : List PingMessage),
      pingClientCall clock transport n payload =
        ⟨rtt, skew, ⟨payload, 0, 0⟩ :: ms.flatMap (fun m => [m, m]), none⟩ ∧
      rtt.length = 3 * n.toNat ∧ skew.length = n.toNat ∧ ms.length = n.toNat ∧
      (∀ x ∈ rtt, ∃ d : ℤ, x = (d : ℚ) / 1000) ∧
      (∀ x ∈ skew, ∃ d : ℤ, x = (d : ℚ) / 1000) ∧
      (∀ j, j < n.toNat → ∃ mj, ms.get? j = some mj ∧
         mj.Ts = clock (3 * j) ∧ mj.Seq = ((1 + j : ℕ) : Int)) := by
  obtain ⟨r0, hr0⟩ := Option.isSome_iff_exists.mp (hok 0 ⟨payload, 0, 0⟩)
  obtain ⟨rtt, skew, ms, hres, h1, h2, h3, h4, h5, h6⟩ :=
    pingLoop_success clock transport hok n.toNat 1
      ⟨[], [], [⟨payload, 0, 0⟩], ⟨payload, 0, 0⟩⟩ (by omega)
  refine ⟨rtt, skew, ms, ?_, h1, h2, h3, h4, h5, ?_⟩
  · simp only [pingClientCall, hr0]
    simpa using hres
  · intro j hj
    obtain ⟨mj, hget, hts, hseq⟩ := h6 j (by omega)
    refine ⟨mj, hget, ?_, hseq⟩
    rw [hts]
    congr 1
    omega

theorem flatMap_pair_get (ms : List PingMessage) :
    ∀ j, (ms.flatMap (fun m => [m, m])).get? (2 * j) = ms.get? j ∧
         (ms.flatMap (fun m => [m, m])).get? (2 * j + 1) = ms.get? j := by
  induction ms with
  | nil => intro j; simp
  | cons m ms ih =>
    intro j
    cases j with
    | zero => simp
    | succ j =>
      have h := ih j
      have e1 : 2 * (j + 1) = (2 * j) + 1 + 1 := by ring
      have e2 : 2 * (j + 1) + 1 = (2 * j + 1) + 1 + 1 := by ring
      constructor
      · rw [e1]
        simpa using h.1
      · rw [e2]
        simpa using h.2

theorem flatMap_pair_length (ms : List PingMessage) :
    (ms.flatMap (fun m => [m, m])).length = 2 * ms.length := by
  induction ms with
  | nil => simp
  | cons m ms ih => simp [ih]; ring

/-- C1: in a run where the responder clock leads the client clock by a
constant `D` and one-way latency is a constant `L`, so that `t1b = t1a+L+D`,
`t2a = t1a+2L`, `t2b = t1a+3L+D`, the per-iteration skew computation
`x = (t1b + rtR/2) - t2a` of `pingClientCall` yields exactly `D`,
independently of `L`; in particular it yields `0` when `D = 0`. -/
theorem claim1_offset_formula_recovers_skew (t1a L D : Int) :
    offsetEstimate (t1a + 2 * L) (t1a + L + D) (t1a + 3 * L + D) = D ∧
    offsetEstimate (t1a + 2 * L) (t1a + L) (t1a + 3 * L) = 0 := by
  have key : ∀ D : Int, offsetEstimate (t1a + 2 * L) (t1a + L + D) (t1a + 3 * L + D) = D := by
    intro D
    unfold offsetEstimate goDiv
    have h : t1a + 3 * L + D - (t1a + L + D) = 2 * L := by ring
    rw [h, Int.mul_tdiv_cancel_left]
    · ring
    · norm_num
  refine ⟨key D, ?_⟩
  have h0 := key 0
  simpa using h0

/-- C2: `pingSrv.Ping` answers every request with a message whose `Ts` is the
responder's own clock reading at handling time, and whose `Payload` and `Seq`
are exactly those of the request; the message has no other field. -/
theorem claim2_responder_overwrites_timestamp_only (req : PingMessage) (now : Int) :
    (pingSrvPing req now).Ts = now ∧ (pingSrvPing req now).Payload = req.Payload ∧
    (pingSrvPing req now).Seq = req.Seq :=
  ⟨rfl, rfl, rfl⟩

/-- C3: if the first failing call of the run happens in iteration `k`
(`2 ≤ k ≤ n`, all earlier calls succeeding), the run aborts in iteration `k`
and the recorded samples are exactly those of the `k-1` completed iterations:
`3*(k-1)` RTT samples and `k-1` skew samples, nothing from iteration `k` and
nothing from any later iteration. -/
theorem claim3_failed_call_aborts_run (clock : ℕ → Int)
    (transport : ℕ → PingMessage → Option PingMessage) (n : Int) (payload : String)
    (k : ℕ) (hk2 : 2 ≤ k) (hkn : (k : Int) ≤ n)
    (hbefore : ∀ c m, c < 2 * k - 1 → (transport c m).isSome)
    (hfail : failsAt transport k) :
    (pingClientCall clock transport n payload).abortedAt = some k ∧
    (pingClientCall clock transport n payload).rttSamples.length = 3 * (k - 1) ∧
    (pingClientCall clock transport n payload).skewSamples.length = k - 1 := by
  obtain ⟨r0, hr0⟩ := Option.isSome_iff_exists.mp
    (hbefore 0 ⟨payload, 0, 0⟩ (by omega))
  obtain ⟨rtt, skew, sent, hres, h1, h2⟩ :=
    pingLoop_abort clock transport k hbefore hfail n.toNat 1
      ⟨[], [], [⟨payload, 0, 0⟩], ⟨payload, 0, 0⟩⟩ (by omega) (by omega) (by omega)
  simp only [pingClientCall, hr0, hres]
  simp [h1, h2]

/-- C4: with a responder that answers every call, a run with `n ≥ 1`
iterations completes, records exactly `3n` RTT samples and exactly `n` skew
samples in production order, and every recorded sample is an integer
nanosecond difference divided by 1000 (microseconds). -/
theorem claim4_sample_counts (clock : ℕ → Int)
    (transport : ℕ → PingMessage → Option PingMessage)
    (hok : ∀ c m, (transport c m).isSome) (n : Int) (_hn : 1 ≤ n) (payload : String) :
    (pingClientCall clock transport n payload).abortedAt = none ∧
    (pingClientCall clock transport n payload).rttSamples.length = 3 * n.toNat ∧
    (pingClientCall clock transport n payload).skewSamples.length = n.toNat ∧
    (∀ x ∈ (pingClientCall clock transport n payload).rttSamples,
       ∃ d : ℤ, x = (d : ℚ) / 1000) ∧
    (∀ x ∈ (pingClientCall clock transport n payload).skewSamples,
       ∃ d : ℤ, x = (d : ℚ) / 1000) := by
  obtain ⟨rtt, skew, ms, hres, h1, h2, h3, h4, h5, h6⟩ :=
    pingClientCall_success clock transport hok n payload
  rw [hres]
  exact ⟨rfl, h1, h2, h4, h5⟩

/-- C5: in every completed iteration `i`, the two timed calls carry the very
same message: the request of the second call equals the request of the first
call, and its `Ts` is still `t1a` (the clock reading taken before the first
send, position `3*(i-1)`, not a fresh reading) while its `Seq` is still `i`. -/
theorem claim5_second_call_same_message (clock : ℕ → Int)
    (transport : ℕ → PingMessage → Option PingMessage)
    (hok : ∀ c m, (transport c m).isSome) (n : Int) (payload : String)
    (i : ℕ) (hi : 1 ≤ i) (hin : (i : Int) ≤ n) :
    (pingClientCall clock transport n payload).sent.get? (2 * i - 1) =
      (pingClientCall clock transport n payload).sent.get? (2 * i) ∧
    ((pingClientCall clock transport n payload).sent.get? (2 * i - 1)).map
        PingMessage.Ts = some (clock (3 * (i - 1))) ∧
    ((pingClientCall clock transport n payload).sent.get? (2 * i - 1)).map
        PingMessage.Seq = some ((i : ℕ) : Int) := by
  obtain ⟨rtt, skew, ms, hres, h1, h2, h3, h4, h5, h6⟩ :=
    pingClientCall_success clock transport hok n payload
  rw [hres]
  obtain ⟨mj, hget, hts, hseq⟩ := h6 (i - 1) (by omega)
  have hdup := flatMap_pair_get ms (i - 1)
  have e1 : 2 * i - 1 = 2 * (i - 1) + 1 := by omega
  have e2 : 2 * i = (2 * (i - 1) + 1) + 1 := by omega
  have g1 : (⟨payload, 0, 0⟩ :: ms.flatMap (fun m => [m, m]) :
      List PingMessage).get? (2 * i - 1) = ms.get? (i - 1) := by
    rw [e1]
    simpa using hdup.1
  have g2 : (⟨payload, 0, 0⟩ :: ms.flatMap (fun m => [m, m]) :
      List PingMessage).get? (2 * i) = ms.get? (i - 1) := by
    rw [e2]
    simpa using hdup.2
  refine ⟨by rw [g1, g2], ?_, ?_⟩
  · rw [g1, hget]
    simp only [Option.map_some']
    rw [hts]
  · rw [g1, hget]
    simp only [Option.map_some']
    rw [hseq]
    have e4 : (1 + (i - 1) : ℕ) = i := by omega
    rw [e4]

/-- C6: against the real responder, if the client's successive clock readings
and the responder's successive clock readings are both monotonically
non-decreasing, every recorded RTT sample (`rtt1`, `rtt2` and `rttR`, in
microseconds) of the whole run is non-negative. -/
theorem claim6_rtt_nonneg (clock sclock : ℕ → Int)
    (hc : Monotone clock) (hs : Monotone sclock) (n : Int) (payload : String) :
    ∀ x ∈ (pingClientCall clock (serverTransport sclock) n payload).rttSamples,
      0 ≤ x := by
  have hrw : pingClientCall clock (serverTransport sclock) n payload =
      pingLoop clock (serverTransport sclock) n.toNat 1
        ⟨[], [], [⟨payload, 0, 0⟩], ⟨payload, 0, 0⟩⟩ := by
    simp only [pingClientCall, serverTransport]
  rw [hrw]
  exact pingLoop_rtt_nonneg clock sclock hc hs n.toNat 1 _ (by omega) (by simp)

/-- Concrete client clock for closed instances: reading `j` is `100*j` ns. -/
def demoClock : ℕ → Int := fun j => 100 * j

/-- Concrete responder clock for closed instances: call `c` is handled at
`1000*c` ns. -/
def demoSClock : ℕ → Int := fun c => 1000 * c

/-- One fully evaluated single-iteration run against the real responder. -/
theorem demoRun_eval :
    pingClientCall demoClock (serverTransport demoSClock) 1 "p" =
      ⟨[1/10, 1/10, 1], [7/5], [⟨"p", 0, 0⟩, ⟨"p", 1, 0⟩, ⟨"p", 1, 0⟩], none⟩ := by
  simp [pingClientCall, pingLoop, pingIteration, serverTransport, pingSrvPing, sentMsg,
    offsetEstimate, goDiv, Int.tdiv, demoClock, demoSClock]
  norm_num

/-- A responder returning constant timestamp `42` - which never advances past
the previous response's timestamp - and payload `"WRONG"`. -/
def c7transport : ℕ → PingMessage → Option PingMessage :=
  fun _ m => some ⟨"WRONG", m.Seq, 42⟩

/-- C7, counterexample: against a responder whose timestamp never advances
(constant `42`) and whose payload (`"WRONG"`) mismatches the request payload
(`"hello"`), the client flags nothing: the run completes (`abortedAt = none`)
and every reading derived from the violating responses is incorporated into
the recorded statistics - all 3 RTT samples (the third one, `0`, is `rttR`
computed from the two equal responder timestamps) and the skew sample.  No
validation of response timestamps or payloads exists in `pingClientCall`. -/
theorem claim7_counterexample :
    pingClientCall demoClock c7transport 1 "hello" =
      ⟨[1/10, 1/10, 0], [-29/500],
       [⟨"hello", 0, 0⟩, ⟨"hello", 1, 0⟩, ⟨"hello", 1, 0⟩], none⟩ ∧
    "WRONG" ≠ "hello" := by
  constructor
  · simp [pingClientCall, pingLoop, pingIteration, c7transport, sentMsg,
      offsetEstimate, goDiv, Int.tdiv, demoClock]
    norm_num
  · decide

/-- C7, amended: the client performs no validation of responses at all.  For
any responder - including one whose timestamp (constant `c`) never advances
and whose payload `q` mismatches the request payload - the run completes
without crashing and the readings derived from the affected responses are
incorporated into the statistics like any others (full `3n` RTT and `n` skew
sample counts, nothing excluded or flagged). -/
theorem claim7_amended_no_validation (clock : ℕ → Int) (n : Int)
    (payload q : String) (c : Int) :
    (pingClientCall clock (fun _ m => some ⟨q, m.Seq, c⟩) n payload).abortedAt =
      none ∧
    (pingClientCall clock (fun _ m => some ⟨q, m.Seq, c⟩) n payload).rttSamples.length =
      3 * n.toNat ∧
    (pingClientCall clock (fun _ m => some ⟨q, m.Seq, c⟩) n payload).skewSamples.length =
      n.toNat := by
  obtain ⟨rtt, skew, ms, hres, h1, h2, h3, h4, h5, h6⟩ :=
    pingClientCall_success clock (fun _ m => some ⟨q, m.Seq, c⟩)
      (fun _ _ => rfl) n payload
  rw [hres]
  exact ⟨rfl, h1, h2⟩

/-- C8: `grpcClient` coerces any requested iteration count `≤ 0` to `1`, so
(with a responder that answers every call) the run performs the warm-up call
plus exactly one complete iteration: 3 requests leave the client in total,
and exactly 3 RTT samples and 1 skew sample are recorded. -/
theorem claim8_nonpositive_count_coerced (exactly : Int) (hle : exactly ≤ 0)
    (clock : ℕ → Int) (transport : ℕ → PingMessage → Option PingMessage)
    (hok : ∀ c m, (transport c m).isSome) (payload : String) :
    (grpcClientPing exactly clock transport payload).abortedAt = none ∧
    (grpcClientPing exactly clock transport payload).rttSamples.length = 3 ∧
    (grpcClientPing exactly clock transport payload).skewSamples.length = 1 ∧
    (grpcClientPing exactly clock transport payload).sent.length = 3 := by
  have hcnt : grpcClientCount exactly = 1 := by
    simp [grpcClientCount, hle]
  unfold grpcClientPing
  rw [hcnt]
  obtain ⟨rtt, skew, ms, hres, h1, h2, h3, h4, h5, h6⟩ :=
    pingClientCall_success clock transport hok 1 payload
  rw [hres]
  refine ⟨rfl, by simpa using h1, by simpa using h2, ?_⟩
  have hl := flatMap_pair_length ms
  simp only [List.length_cons, hl, h3]
  omega

/-- C9: the client loop is deterministic in its inputs: two runs with the
same iteration count and payload, whose clock oracles agree on every reading
the run can take (positions `< 3n`) and whose transports agree on every call
the run can make (calls `≤ 2n`), produce identical RTT sample sequences and
identical skew sample sequences. -/
theorem claim9_deterministic (clk1 clk2 : ℕ → Int)
    (tr1 tr2 : ℕ → PingMessage → Option PingMessage) (n : Int) (payload : String)
    (hc : ∀ j, j < 3 * n.toNat → clk1 j = clk2 j)
    (ht : ∀ c m, c ≤ 2 * n.toNat → tr1 c m = tr2 c m) :
    (pingClientCall clk1 tr1 n payload).rttSamples =
      (pingClientCall clk2 tr2 n payload).rttSamples ∧
    (pingClientCall clk1 tr1 n payload).skewSamples =
      (pingClientCall clk2 tr2 n payload).skewSamples := by
  rw [pingClientCall_congr clk1 clk2 tr1 tr2 n payload hc ht]
  exact ⟨rfl, rfl⟩

/-- C10: the iteration body reads `res2.Ts` (and `t3a`) before checking the
second call's error; under the precondition that the second call succeeded
(returned a response `r2`), the error branch for the second call is
unreachable, the access is safe, and the iteration completes normally with
`r2` as the new message state (the warm first call is also assumed to have
succeeded, otherwise the loop dies before the second call is ever made). -/
theorem claim10_second_response_access_safe (clock : ℕ → Int)
    (transport : ℕ → PingMessage → Option PingMessage) (i : ℕ) (st : RunState)
    (r2 : PingMessage)
    (h1 : (transport (2 * i - 1) (sentMsg clock i st.msg)).isSome)
    (h2 : transport (2 * i) (sentMsg clock i st.msg) = some r2) :
    (pingIteration clock transport i st).map RunState.msg = some r2 := by
  obtain ⟨r1, hr1⟩ := Option.isSome_iff_exists.mp h1
  rw [pingIteration_succ clock transport i st r1 r2 hr1 h2]
  rfl

/-- Transport whose only failing call is call number 3 (iteration 2, first
timed call); all earlier calls are answered by the real responder. -/
def failTransport : ℕ → PingMessage → Option PingMessage :=
  fun c m => if c = 3 then none else some (pingSrvPing m (demoSClock c))

/-- Closed instance of C3: failure on iteration 2 of 5 leaves exactly one
complete iteration's worth of samples. -/
theorem claim3_witness :
    (pingClientCall demoClock failTransport 5 "p").abortedAt = some 2 ∧
    (pingClientCall demoClock failTransport 5 "p").rttSamples.length = 3 ∧
    (pingClientCall demoClock failTransport 5 "p").skewSamples.length = 1 := by
  have h := claim3_failed_call_aborts_run demoClock failTransport 5 "p" 2
    (by omega) (by omega)
    (by
      intro c m hc
      simp only [failTransport]
      rw [if_neg (by omega)]
      rfl)
    (Or.inl (by intro m; simp [failTransport]))
  exact ⟨h.1, by simpa using h.2.1, by simpa using h.2.2⟩

/-- Closed instance of C4: 3 iterations yield 9 RTT and 3 skew samples. -/
theorem claim4_witness :
    (pingClientCall demoClock (serverTransport demoSClock) 3 "p").abortedAt = none ∧
    (pingClientCall demoClock (serverTransport demoSClock) 3 "p").rttSamples.length = 9 ∧
    (pingClientCall demoClock (serverTransport demoSClock) 3 "p").skewSamples.length = 3 := by
  have h := claim4_sample_counts demoClock (serverTransport demoSClock)
    (fun _ _ => rfl) 3 (by omega) "p"
  exact ⟨h.1, by simpa using h.2.1, by simpa using h.2.2.1⟩

/-- Closed instance of C5: in iteration 1 the two requests coincide and carry
`Ts = t1a = 0`, `Seq = 1`. -/
theorem claim5_witness :
    (pingClientCall demoClock (serverTransport demoSClock) 1 "p").sent.get? 1 =
      (pingClientCall demoClock (serverTransport demoSClock) 1 "p").sent.get? 2 ∧
    ((pingClientCall demoClock (serverTransport demoSClock) 1 "p").sent.get? 1).map
        PingMessage.Ts = some 0 ∧
    ((pingClientCall demoClock (serverTransport demoSClock) 1 "p").sent.get? 1).map
        PingMessage.Seq = some 1 := by
  have h := claim5_second_call_same_message demoClock (serverTransport demoSClock)
    (fun _ _ => rfl) 1 "p" 1 (by omega) (by omega)
  simpa [demoClock] using h

/-- Closed instance of C6: the first RTT sample of a monotone-clock run is
non-negative. -/
theorem claim6_witness : (0 : ℚ) ≤ 1/10 :=
  claim6_rtt_nonneg demoClock demoSClock
    (fun a b h => by simp only [demoClock]; omega)
    (fun a b h => by simp only [demoSClock]; omega)
    1 "p" (1/10) (by rw [demoRun_eval]; simp)

/-- Closed instance of C8: a requested count of 0 runs one iteration. -/
theorem claim8_witness :
    (grpcClientPing 0 demoClock (serverTransport demoSClock) "p").abortedAt = none ∧
    (grpcClientPing 0 demoClock (serverTransport demoSClock) "p").rttSamples.length = 3 ∧
    (grpcClientPing 0 demoClock (serverTransport demoSClock) "p").skewSamples.length = 1 ∧
    (grpcClientPing 0 demoClock (serverTransport demoSClock) "p").sent.length = 3 :=
  claim8_nonpositive_count_coerced 0 (by omega) demoClock (serverTransport demoSClock)
    (fun _ _ => rfl) "p"

/-- Closed instance of C9: two identical environments produce identical
sample sequences. -/
theorem claim9_witness :
    (pingClientCall demoClock (serverTransport demoSClock) 2 "p").rttSamples =
      (pingClientCall demoClock (serverTransport demoSClock) 2 "p").rttSamples ∧
    (pingClientCall demoClock (serverTransport demoSClock) 2 "p").skewSamples =
      (pingClientCall demoClock (serverTransport demoSClock) 2 "p").skewSamples :=
  claim9_deterministic demoClock demoClock (serverTransport demoSClock)
    (serverTransport demoSClock) 2 "p" (fun _ _ => rfl) (fun _ _ _ => rfl)

/-- Closed instance of C10: with both calls of iteration 1 succeeding, the
iteration completes and its state carries the second response. -/
theorem claim10_witness :
    (pingIteration demoClock (serverTransport demoSClock) 1
        ⟨[], [], [], ⟨"p", 0, 0⟩⟩).map RunState.msg =
      some (pingSrvPing (sentMsg demoClock 1 ⟨"p", 0, 0⟩) (demoSClock 2)) :=
  claim10_second_response_access_safe demoClock (serverTransport demoSClock) 1
    ⟨[], [], [], ⟨"p", 0, 0⟩⟩
    (pingSrvPing (sentMsg demoClock 1 ⟨"p", 0, 0⟩) (demoSClock 2))
    (by rfl) rfl
